import Mathlib

/- Shallow embedding of the manifest composition engine of the
   redhat-developer gitops CLI (the kam bootstrap code in pkg/pipelines
   and pkg/cmd).  Pure Go functions become Lean functions; Go maps become
   association lists with overwrite-on-put semantics; fallible Go code
   returns Except.  External collaborators (secret generation, driver
   identification, scm repository clients) are modelled as oracles or as
   definitions marked Modelled from the spec. -/

/-- Go strings.Split for the slash separator, on character lists.
Mirrors strings.Split(s, "/"): returns the list of segments between
slashes, always at least one element. -/
def splitSlashAux : List Char → List Char → List String
  | [], acc => [String.mk acc.reverse]
  | c :: cs, acc =>
    if c = '/' then String.mk acc.reverse :: splitSlashAux cs []
    else splitSlashAux cs (c :: acc)

/-- One step of the segment stack of Go path.Clean: empty and dot
segments are dropped, a dotdot segment pops the stack (kept in a
relative path when there is nothing left to pop, dropped in a rooted
path), any other segment is pushed.  The stack is kept reversed. -/
def cleanStep (rooted : Bool) (stack : List String) (seg : String) : List String :=
  if seg = "" ∨ seg = "." then stack
  else if seg = ".." then
    match stack with
    | t :: rest => if t = ".." then seg :: t :: rest else rest
    | [] => if rooted then [] else [".."]
  else seg :: stack

/-- Go path.Clean (the lexical path normalization used by
filepath.Clean on slash-separated paths): shortest equivalent path,
with ".", ".." and empty segments resolved.  Implemented on the
segment list; equivalent to the byte-wise loop in the Go standard
library. -/
def goClean (path : String) : String :=
  if path = "" then "."
  else
    let rooted := match path.data with
      | '/' :: _ => true
      | _ => false
    let segs := splitSlashAux path.data []
    let stack := (segs.foldl (cleanStep rooted) []).reverse
    if stack = [] then (if rooted then "/" else ".")
    else (if rooted then "/" else "") ++ String.intercalate "/" stack

/-- Go filepath.Join on a slash-separated system: skip leading empty
elements, join the rest with slashes, and Clean the result; the empty
string when every element is empty.  filepath.ToSlash is the identity
here. -/
def goJoin : List String → String
  | [] => ""
  | e :: rest => if e = "" then goJoin rest
    else goClean (String.intercalate "/" (e :: rest))

/-- Go strings.TrimSuffix on character lists: drop the suffix when it
is present, otherwise return the string unchanged. -/
def trimSuffix (s suffix : String) : String :=
  if suffix.data.isSuffixOf s.data then
    String.mk (s.data.take (s.data.length - suffix.data.length))
  else s

/-- A Tekton pipeline task: a name and the list of task names it runs
after (its dependency edges).  Mirrors pipelinev1.PipelineTask with the
fields the pruning code touches. -/
structure PipelineTask where
  name : String
  runAfter : List String
deriving DecidableEq, Repr

/-- A Tekton pipeline: the ordered task list and the finally task
list.  Mirrors pipelinev1.Pipeline restricted to Spec.Tasks and
Spec.Finally, the two fields the pruning code touches. -/
structure Pipeline where
  tasks : List PipelineTask
  finallyTasks : List PipelineTask
deriving DecidableEq, Repr

/-- The loop body of removeCommitStatus: walk the task list, clear the
runAfter list of a task whose first runAfter entry is the pruned task
name, and drop the pruned task itself. -/
def pruneTasks (spst : String) : List PipelineTask → List PipelineTask
  | [] => []
  | task :: rest =>
    let task := if task.runAfter.length > 0 ∧ task.runAfter.head? = some spst then
        { task with runAfter := [] }
      else task
    if task.name ≠ spst then task :: pruneTasks spst rest
    else pruneTasks spst rest

/-- removeCommitStatus from pkg/pipelines: with an empty driver the
pipeline is returned unchanged; otherwise the finally list is emptied
and the task list is rebuilt by the pruning loop with the task name
set-pending-status. -/
def removeCommitStatus (pipeline : Pipeline) (driver : String) : Pipeline :=
  if driver = "" then pipeline
  else
    { finallyTasks := [],
      tasks := pruneTasks "set-pending-status" pipeline.tasks }

/-- A service account carried through createCICDResources: namespace,
name and the names of the secrets attached so far.  Mirrors the
corev1.ServiceAccount fields the bootstrap code touches. -/
structure ServiceAccount where
  ns : String
  saname : String
  secrets : List String
deriving DecidableEq, Repr

/-- Modelled from the spec: roles.AddSecretToSA (the roles package is
not under src).  Attaches one more secret name to the service
account. -/
def AddSecretToSA (sa : ServiceAccount) (secret : String) : ServiceAccount :=
  { sa with secrets := sa.secrets ++ [secret] }

/-- An opaque structured resource value: one constructor per kind of
object the bootstrap code stores in a resource map, carrying the
inputs the code passed to the external constructor. -/
inductive Res where
  | secretRes (ns name value key : String)
  | dockerSecretRes (ns name : String)
  | basicAuthSecretRes (ns name token host : String)
  | namespaceRes (name url : String)
  | clusterRoleRes (name : String)
  | serviceAccountRes (sa : ServiceAccount)
  | argocdAdminRes (ns : String)
  | clusterRoleBindingRes (name : String) (sa : ServiceAccount) (kind roleName : String)
  | deployTaskRes (ns script : String)
  | commitStatusTaskRes (ns : String)
  | pipelineRes (p : Pipeline)
  | pushBindingRes (ns name : String)
  | pushTemplateRes (ns sa : String)
  | appCIPushTemplateRes (ns sa : String)
  | eventListenerRes (ns sa secret : String)
  | routeRes (ns : String)
deriving DecidableEq, Repr

/-- A Resource Map: relative file path to resource value.  Modelled as
an association list with unique keys and overwrite-on-put semantics,
matching a Go map from string to interface value. -/
abbrev Resources := List (String × Res)

/-- The keys of a resource map. -/
def rkeys (m : Resources) : List String := m.map Prod.fst

/-- Store into a resource map: replace the entry when the key is
already present, append otherwise.  This is assignment into a Go
map. -/
def rput (m : Resources) (k : String) (v : Res) : Resources :=
  if k ∈ rkeys m then m.map (fun p => if p.1 = k then (k, v) else p)
  else m ++ [(k, v)]

/-- Modelled from the spec: res.Merge (the resources package is not
under src).  Returns a map containing every key from base, then every
key from overlay applied on top, so overlay entries win on key
collision. -/
def rmerge (overlay base : Resources) : Resources :=
  overlay.foldl (fun acc p => rput acc p.1 p.2) base

/-- BootstrapOptions from pkg/pipelines: the option flags consumed by
the bootstrap flow.  The Prefix field is named pfx here. -/
structure BootstrapOptions where
  gitOpsRepoURL : String
  gitOpsWebhookSecret : String
  pfx : String
  dockerConfigJSONFilename : String
  imageRepo : String
  outputPath : String
  gitHostAccessToken : String
  overwrite : Bool
  serviceRepoURL : String
  saveTokenKeyRing : Bool
  serviceWebhookSecret : String
  privateRepoDriver : String
  pushToGit : Bool
deriving DecidableEq, Repr

/-- Path constant from pkg/pipelines. -/
def namespacesPath : String := "01-namespaces/cicd-environment.yaml"

/-- Path constant from pkg/pipelines. -/
def rolesPath : String := "02-rolebindings/pipeline-service-role.yaml"

/-- Path constant from pkg/pipelines. -/
def rolebindingsPath : String := "02-rolebindings/pipeline-service-rolebinding.yaml"

/-- Path constant from pkg/pipelines. -/
def serviceAccountPath : String := "02-rolebindings/pipeline-service-account.yaml"

/-- Path constant from pkg/pipelines. -/
def argocdAdminRolePath : String := "02-rolebindings/argocd-admin.yaml"

/-- Path constant from pkg/pipelines. -/
def gitopsTasksPath : String := "03-tasks/deploy-from-source-task.yaml"

/-- Path constant from pkg/pipelines. -/
def commitStatusTaskPath : String := "03-tasks/set-commit-status-task.yaml"

/-- Path constant from pkg/pipelines. -/
def ciPipelinesPath : String := "04-pipelines/ci-dryrun-from-push-pipeline.yaml"

/-- Path constant from pkg/pipelines. -/
def appCiPipelinesPath : String := "04-pipelines/app-ci-pipeline.yaml"

/-- Path constant from pkg/pipelines. -/
def pushTemplatePath : String := "06-templates/ci-dryrun-from-push-template.yaml"

/-- Path constant from pkg/pipelines. -/
def appCIPushTemplatePath : String := "06-templates/app-ci-build-from-push-template.yaml"

/-- Path constant from pkg/pipelines. -/
def eventListenerPath : String := "07-eventlisteners/cicd-event-listener.yaml"

/-- Path constant from pkg/pipelines. -/
def routePath : String := "08-routes/gitops-webhook-event-listener.yaml"

/-- Name constant from pkg/pipelines. -/
def dockerSecretName : String := "regcred"

/-- Name constant from pkg/pipelines. -/
def authTokenSecretName : String := "git-host-access-token"

/-- Name constant from pkg/pipelines. -/
def basicAuthTokenName : String := "git-host-basic-auth-token"

/-- Name constant from pkg/pipelines. -/
def saName : String := "pipeline"

/-- Name constant from pkg/pipelines. -/
def roleBindingName : String := "pipelines-service-role-binding"

/-- Length constant from pkg/pipelines: the length passed to the
webhook secret generator. -/
def webhookSecretLength : Nat := 20

/-- Name constant from pkg/pipelines. -/
def pipelinesFile : String := "pipelines.yaml"

/-- Name constant from pkg/pipelines. -/
def appCITemplateName : String := "app-ci-template"

/-- Modelled from the spec: eventlisteners.GitOpsWebhookSecret (the
eventlisteners package is not under src), the name of the GitOps
webhook secret. -/
def gitOpsWebhookSecretName : String := "gitops-webhook-secret"

/-- Modelled from the spec: eventlisteners.WebhookSecretKey (the
eventlisteners package is not under src), the key under which a
webhook secret value is stored. -/
def webhookSecretKey : String := "webhook-secret-key"

/-- Modelled from the spec: roles.ClusterRoleName (the roles package
is not under src). -/
def clusterRoleName : String := "pipelines-clusterrole"

/-- Modelled from the spec: argocd.ArgoCDNamespace (the argocd package
is not under src). -/
def argoCDNamespace : String := "openshift-gitops"

/-- maybeMakeHookSecrets from pkg/pipelines.  The external secret
generator secrets.GenerateString is an oracle indexed by call order:
gen i n is the outcome of the i-th generator call asking for length n,
so the two calls the code can make are modelled as distinct draws.
An empty GitOps webhook secret and an empty service webhook secret are
each replaced by a freshly generated secret of webhookSecretLength;
non-empty secrets are left alone. -/
def maybeMakeHookSecrets (gen : Nat → Nat → Except String String)
    (o : BootstrapOptions) : Except String BootstrapOptions :=
  let step1 : Except String (BootstrapOptions × Nat) :=
    if o.gitOpsWebhookSecret = "" then
      match gen 0 webhookSecretLength with
      | .error e => .error ("failed to generate GitOps webhook secret: " ++ e)
      | .ok s => .ok ({ o with gitOpsWebhookSecret := s }, 1)
    else .ok (o, 0)
  match step1 with
  | .error e => .error e
  | .ok (o1, calls) =>
    if o1.serviceWebhookSecret = "" then
      match gen calls webhookSecretLength with
      | .error e => .error ("failed to generate application webhook secret: " ++ e)
      | .ok s => .ok { o1 with serviceWebhookSecret := s }
    else .ok o1

/-- errorIfFileExists from pkg/pipelines: for each file in the list,
fail when it exists under the output path (existence is an oracle fs
standing for ioutils.IsExisting over the afero filesystem). -/
def errorIfFileExists (fs : String → Bool) (outputPath : String) : List String → Except String Unit
  | [] => .ok ()
  | file :: rest =>
    if fs (goJoin [outputPath, file]) then
      .error (file ++ " in output path already exists. If you want to replace your existing files, please rerun with --overwrite")
    else errorIfFileExists fs outputPath rest

/-- checkPipelinesFileExists from pkg/pipelines: all checks are
skipped when overWrite is set; otherwise pipelines.yaml (and .git when
pushing to git) must not exist under the output path, and a secrets
folder must not exist as a sibling of the output path. -/
def checkPipelinesFileExists (fs : String → Bool) (outputPath : String)
    (overWrite pushToGit : Bool) : Except String Unit :=
  if overWrite then .ok ()
  else
    let checkList := [pipelinesFile]
    let checkList := if pushToGit then checkList ++ [".git"] else checkList
    match errorIfFileExists fs outputPath checkList with
    | .error e => .error e
    | .ok _ =>
      if fs (goJoin [outputPath, "..", "secrets"]) then
        .error ("the secrets folder located as a sibling of the output folder " ++ outputPath ++ " already exists. Rerun with --overwrite")
      else .ok ()

/-- An scm repository handle: the normalized repository URL and the
name of the push binding its driver produces.  Models the narrow
scm.Repository interface the bootstrap code consumes
(repo.URL and repo.CreatePushBinding). -/
structure ScmRepo where
  url : String
  pushBindingName : String
deriving DecidableEq, Repr

/-- Modelled from the spec: pipelines.CreateCIPipeline (the pipelines
package is not under src), the webhook push-triggered dry-run CI
pipeline.  Its task content is unspecified by the spec; only the value
slot matters to the claims, which is why the tasks are opaque here. -/
def CreateCIPipeline (ns : String) : Pipeline :=
  { tasks := [{ name := "ci-dryrun-from-push-task-" ++ ns, runAfter := [] }],
    finallyTasks := [] }

/-- Modelled from the spec: pipelines.CreateAppCIPipeline (the
pipelines package is not under src), the app CI pipeline. -/
def CreateAppCIPipeline (ns : String) : Pipeline :=
  { tasks := [{ name := "app-ci-task-" ++ ns, runAfter := [] }],
    finallyTasks := [] }

/-- Modelled from the spec: dryrun.MakeScript (the dryrun package is
not under src), the kubectl dry-run script for the deploy task. -/
def makeScript (interpreter ns : String) : String :=
  interpreter ++ " apply -n " ++ ns

/-- Modelled from the spec: the repoURL helper used by generateSecrets
(not under src), which reduces the service repository URL to the host
URL recorded in the basic-auth secret annotation. -/
def repoHostURL (raw : String) : String := raw

/-- createDockerSecret from pkg/pipelines: fails when no docker config
filename was supplied or when the file cannot be opened (fsOpen is the
oracle for the filesystem open succeeding; homedir expansion is the
identity here); otherwise produces the docker-config secret. -/
def createDockerSecret (fsOpen : String → Bool) (dockerConfigJSONFilename secretNS : String) :
    Except String Res :=
  if dockerConfigJSONFilename = "" then
    .error "failed to generate path to file: --dockerconfigjson flag is not provided"
  else if fsOpen dockerConfigJSONFilename then
    .ok (Res.dockerSecretRes secretNS dockerSecretName)
  else
    .error ("failed to read Docker config " ++ dockerConfigJSONFilename)

/-- The tail of createCICDResources after the docker-config step: the
access-token secrets (generateSecrets), the argocd admin role, the
cluster role binding, the tasks, the pipelines run through
removeCommitStatus, the push binding, the templates, the event
listener and the route, accumulated in source order. -/
def cicdOutputsCore (cicdNamespace : String) (repo : ScmRepo) (o : BootstrapOptions)
    (outputs otherOutputs : Resources) (sa : ServiceAccount) : Resources × Resources :=
  let state :=
    if o.gitHostAccessToken ≠ "" then
      let otherOutputs := rput otherOutputs (goJoin ["secrets", "git-host-access-token.yaml"])
        (Res.secretRes cicdNamespace authTokenSecretName o.gitHostAccessToken "token")
      let sa := AddSecretToSA sa authTokenSecretName
      let outputs := rput outputs serviceAccountPath (Res.serviceAccountRes sa)
      let otherOutputs := rput otherOutputs (goJoin ["secrets", basicAuthTokenName ++ ".yaml"])
        (Res.basicAuthSecretRes cicdNamespace basicAuthTokenName o.gitHostAccessToken
          (repoHostURL o.serviceRepoURL))
      let sa := AddSecretToSA sa basicAuthTokenName
      let outputs := rput outputs serviceAccountPath (Res.serviceAccountRes sa)
      (outputs, otherOutputs, sa)
    else (outputs, otherOutputs, sa)
  let outputs := state.1
  let otherOutputs := state.2.1
  let sa := state.2.2
  let outputs := rput outputs argocdAdminRolePath (Res.argocdAdminRes cicdNamespace)
  let outputs := rput outputs rolebindingsPath
    (Res.clusterRoleBindingRes roleBindingName sa "ClusterRole" clusterRoleName)
  let outputs := rput outputs gitopsTasksPath
    (Res.deployTaskRes cicdNamespace (makeScript "kubectl" cicdNamespace))
  let outputs :=
    if o.privateRepoDriver = "" then
      rput outputs commitStatusTaskPath (Res.commitStatusTaskRes cicdNamespace)
    else outputs
  let outputs := rput outputs ciPipelinesPath
    (Res.pipelineRes (removeCommitStatus (CreateCIPipeline cicdNamespace) o.privateRepoDriver))
  let outputs := rput outputs appCiPipelinesPath
    (Res.pipelineRes (removeCommitStatus (CreateAppCIPipeline cicdNamespace) o.privateRepoDriver))
  let outputs := rput outputs (goJoin ["05-bindings", repo.pushBindingName ++ ".yaml"])
    (Res.pushBindingRes cicdNamespace repo.pushBindingName)
  let outputs := rput outputs pushTemplatePath (Res.pushTemplateRes cicdNamespace saName)
  let outputs := rput outputs appCIPushTemplatePath (Res.appCIPushTemplateRes cicdNamespace saName)
  let outputs := rput outputs eventListenerPath
    (Res.eventListenerRes cicdNamespace saName gitOpsWebhookSecretName)
  let outputs := rput outputs routePath (Res.routeRes cicdNamespace)
  (outputs, otherOutputs)

/-- createCICDResources from pkg/pipelines: builds the CICD namespace
resource map (outputs) and the sibling secrets map (otherOutputs) for
the pipeline configuration named cfgName.  External constructors
(secrets, namespaces, roles, triggers, eventlisteners packages) are
modelled as Res constructors carrying their inputs; the filesystem
open used for the docker config is the fsOpen oracle. -/
def createCICDResources (fsOpen : String → Bool) (repo : ScmRepo) (cfgName : String)
    (o : BootstrapOptions) : Except String (Resources × Resources) :=
  let cicdNamespace := cfgName
  let otherOutputs := rput [] (goJoin ["secrets", "gitops-webhook-secret.yaml"])
    (Res.secretRes cicdNamespace gitOpsWebhookSecretName o.gitOpsWebhookSecret webhookSecretKey)
  let outputs := rput [] namespacesPath (Res.namespaceRes cicdNamespace o.gitOpsRepoURL)
  let outputs := rput outputs rolesPath (Res.clusterRoleRes clusterRoleName)
  let sa : ServiceAccount := { ns := cicdNamespace, saname := saName, secrets := [] }
  let dockerStep : Except String (Resources × Resources × ServiceAccount) :=
    if o.dockerConfigJSONFilename ≠ "" then
      match createDockerSecret fsOpen o.dockerConfigJSONFilename cicdNamespace with
      | .error e => .error e
      | .ok d =>
        let otherOutputs := rput otherOutputs (goJoin ["secrets", "docker-config.yaml"]) d
        let sa := AddSecretToSA sa dockerSecretName
        let outputs := rput outputs serviceAccountPath (Res.serviceAccountRes sa)
        .ok (outputs, otherOutputs, sa)
    else .ok (outputs, otherOutputs, sa)
  match dockerStep with
  | .error e => .error e
  | .ok (outputs, otherOutputs, sa) =>
    .ok (cicdOutputsCore cicdNamespace repo o outputs otherOutputs sa)

/-- The fixed table of well-known CICD resource paths: the paths of
the section 6 table, instantiated at the push binding name and at the
two option-derived toggles (whether the commit-status task is present,
and whether the service-account patch file is present).  The table
does not depend on the prefix, the image repository or the registry
classification. -/
def cicdTable (pushBindingName : String) (driverEmpty saPresent : Bool) : List String :=
  [namespacesPath, rolesPath]
  ++ (if saPresent then [serviceAccountPath] else [])
  ++ [argocdAdminRolePath, rolebindingsPath, gitopsTasksPath]
  ++ (if driverEmpty then [commitStatusTaskPath] else [])
  ++ [ciPipelinesPath, appCiPipelinesPath,
      goJoin ["05-bindings", pushBindingName ++ ".yaml"], pushTemplatePath, appCIPushTemplatePath,
      eventListenerPath, routePath]

/-- A trigger template binding from pkg/pipelines/config: the template
name and the ordered trigger binding names, first match wins. -/
structure TemplateBinding where
  template : String
  bindings : List String
deriving DecidableEq, Repr

/-- Pipelines from pkg/pipelines/config: the optional integration
binding of an environment or a service. -/
structure Pipelines where
  integration : Option TemplateBinding
deriving DecidableEq, Repr

/-- A webhook secret reference from pkg/pipelines/config. -/
structure WSecret where
  name : String
  ns : String
deriving DecidableEq, Repr

/-- A webhook from pkg/pipelines/config. -/
structure Webhook where
  secret : Option WSecret
deriving DecidableEq, Repr

/-- A service from pkg/pipelines/config. -/
structure Service where
  name : String
  sourceURL : String
  webhook : Option Webhook
  pipelines : Option Pipelines
deriving DecidableEq, Repr

/-- An application from pkg/pipelines/config. -/
structure Application where
  name : String
  services : List Service
deriving DecidableEq, Repr

/-- An environment from pkg/pipelines/config. -/
structure Environment where
  name : String
  apps : List Application
  pipelines : Option Pipelines
deriving DecidableEq, Repr

/-- The cicd pipelines configuration from pkg/pipelines/config. -/
structure PipelinesConfig where
  name : String
deriving DecidableEq, Repr

/-- The argocd configuration from pkg/pipelines/config. -/
structure ArgoCDConfig where
  ns : String
deriving DecidableEq, Repr

/-- The git driver override configuration from pkg/pipelines/config. -/
structure GitConfig where
  drivers : List (String × String)
deriving DecidableEq, Repr

/-- The special configuration block of a manifest from
pkg/pipelines/config. -/
structure Config where
  pipelines : Option PipelinesConfig
  argocd : Option ArgoCDConfig
  git : Option GitConfig
deriving DecidableEq, Repr

/-- The manifest from pkg/pipelines/config: the root declarative
document. -/
structure Manifest where
  gitOpsURL : String
  environments : List Environment
  config : Option Config
  version : Nat
deriving DecidableEq, Repr

/-- Modelled from the spec: config.Manifest.GetEnvironment (the config
package is not under src) performs a linear scan by name and returns
an absent signal when there is no match. -/
def Manifest.GetEnvironment (m : Manifest) (n : String) : Option Environment :=
  m.environments.find? (fun e => e.name == n)

/-- Modelled from the spec: config.Manifest.GetApplication (the config
package is not under src) finds the environment by name, then the
application within it by name. -/
def Manifest.GetApplication (m : Manifest) (envName appName : String) : Option Application :=
  (m.GetEnvironment envName).bind (fun e => e.apps.find? (fun a => a.name == appName))

/-- createManifest from pkg/pipelines. -/
def createManifest (gitOpsRepoURL : String) (configEnv : Config)
    (envs : List Environment) : Manifest :=
  { gitOpsURL := gitOpsRepoURL, environments := envs, config := some configEnv, version := 1 }

/-- The dev-environment guard of bootstrapResources (pkg/pipelines
lines around the GetEnvironment and GetApplication lookups): after the
manifest is constructed, composition requires the dev environment and
the bootstrap application to be present, failing with the precondition
error otherwise; only then does the remaining composition (the
continuation k) run and produce the two resource maps. -/
def bootstrapComposeFrom (m : Manifest) (devName appName : String)
    (k : Environment → Application → Except String (Resources × Resources)) :
    Except String (Resources × Resources) :=
  match m.GetEnvironment devName with
  | none => .error "unable to bootstrap without dev environment"
  | some devEnv =>
    match m.GetApplication devName appName with
    | none => .error "unable to bootstrap without application"
    | some app => k devEnv app

/-- The service-binding wiring step of bootstrapResources: the single
bootstrap service of the dev environment gets a pipelines override
whose integration bindings are the freshly computed image-repository
binding name prepended to the existing environment-level integration
bindings.  The template field of the new binding is the zero value.
Outside the shapes the bootstrap flow guarantees (a first app with a
first service, and environment pipelines with an integration block,
where the Go code would dereference nil) the environment is returned
unchanged. -/
def wireSvcImageBinding (devEnv : Environment) (bindingName : String) : Environment :=
  match devEnv.apps with
  | [] => devEnv
  | app0 :: restApps =>
    match app0.services with
    | [] => devEnv
    | svc0 :: restSvcs =>
      match devEnv.pipelines.bind (fun p => p.integration) with
      | none => devEnv
      | some tb =>
        let newTb : TemplateBinding := { template := "", bindings := bindingName :: tb.bindings }
        let svc0 := { svc0 with pipelines := some { integration := some newTb } }
        { devEnv with apps := { app0 with services := svc0 :: restSvcs } :: restApps }

/-- The integration binding list of the first service of the first
application of an environment, when present. -/
def svcBindings (e : Environment) : Option (List String) :=
  match e.apps with
  | [] => none
  | a :: _ =>
    match a.services with
    | [] => none
    | s :: _ => (s.pipelines.bind (fun p => p.integration)).map (fun tb => tb.bindings)

/-- Helper for the url model: the characters after the first scheme
separator "://" of a raw URL, when one is present. -/
def dropThroughSep : List Char → Option (List Char)
  | [] => none
  | ':' :: '/' :: '/' :: rest => some rest
  | _ :: rest => dropThroughSep rest

/-- Helper for the url model: drop the host part, so everything up to
the first slash. -/
def dropHost : List Char → List Char
  | [] => []
  | c :: rest => if c = '/' then c :: rest else dropHost rest

/-- Helper for the url model: cut the query and fragment parts. -/
def takeUntilQF (l : List Char) : List Char :=
  l.takeWhile (fun c => c ≠ '?' ∧ c ≠ '#')

/-- The path component of a parsed URL, modelling Go net/url Parse
for the absolute http(s) repository URLs the bootstrap flow consumes:
the part after the scheme and host, query and fragment stripped.  A
string without a scheme separator is treated as an opaque path, as
net/url does for scheme-less input. -/
def urlParsePath (raw : String) : String :=
  match dropThroughSep raw.data with
  | some rest => String.mk (takeUntilQF (dropHost rest))
  | none => String.mk (takeUntilQF raw.data)

/-- repoFromURL from pkg/pipelines: parse the URL, split its path on
slashes, take the last segment and trim a .git suffix.  The url parse
step of the model is total, so the Go error branch (malformed URL)
does not arise here. -/
def repoFromURL (raw : String) : Except String String :=
  let parts := splitSlashAux (urlParsePath raw).data []
  .ok (trimSuffix ((parts.getLast?).getD "") ".git")

/-- repoToAppName from pkg/pipelines. -/
def repoToAppName (repoName : String) : String := "app-" ++ repoName

/-- defaultPipelines from pkg/pipelines: the environment-level
integration binding of the dev environment, using the push binding
name of the repository driver. -/
def defaultPipelines (r : ScmRepo) : Pipelines :=
  { integration := some { template := appCITemplateName, bindings := [r.pushBindingName] } }

/-- serviceFromRepo from pkg/pipelines: the bootstrap service named
after the repository, with its webhook secret reference. -/
def serviceFromRepo (repoURL secretName secretNS : String) : Except String Service :=
  match repoFromURL repoURL with
  | .error e => .error e
  | .ok repo =>
    .ok { name := repo, sourceURL := repoURL,
          webhook := some { secret := some { name := secretName, ns := secretNS } },
          pipelines := none }

/-- applicationFromRepo from pkg/pipelines: the bootstrap application
wrapping the service, named app- plus the repository name. -/
def applicationFromRepo (repoURL : String) (service : Service) : Except String Application :=
  match repoFromURL repoURL with
  | .error e => .error e
  | .ok repo => .ok { name := repoToAppName repo, services := [service] }

/-- Modelled from the spec: namespaces.NamesWithPrefix (the namespaces
package is not under src) computes the namespace names as the prefix
followed by the well-known suffix. -/
def namesWithPfx (pfx : String) (k : String) : String := pfx ++ k

/-- The loop of bootstrapEnvironments over the well-known keys: the
cicd key only sets the pipelines configuration; the dev key builds the
environment with the bootstrap application, service and default
pipelines; any other key builds a bare environment. -/
def bootstrapEnvsLoop (repo : ScmRepo) (pfx secretName : String) (ns : String → String) :
    List String → List Environment → Option PipelinesConfig →
    Except String (List Environment × Option PipelinesConfig)
  | [], envs, pc => .ok (envs, pc)
  | k :: rest, envs, pc =>
    let v := ns k
    if k = "cicd" then
      bootstrapEnvsLoop repo pfx secretName ns rest envs (some { name := pfx ++ "cicd" })
    else if k = "dev" then
      match serviceFromRepo repo.url secretName (ns "cicd") with
      | .error e => .error e
      | .ok svc =>
        match applicationFromRepo repo.url svc with
        | .error e => .error e
        | .ok app =>
          let app := { app with services := [svc] }
          let env : Environment := { name := v, apps := [app], pipelines := some (defaultPipelines repo) }
          bootstrapEnvsLoop repo pfx secretName ns rest (envs ++ [env]) pc
    else
      bootstrapEnvsLoop repo pfx secretName ns rest
        (envs ++ [{ name := v, apps := [], pipelines := none }]) pc

/-- bootstrapEnvironments from pkg/pipelines: walks the keys cicd, dev
and stage; the environments list collects the dev and stage
environments, while the cicd key becomes the pipelines configuration
carried in the returned config block together with the argocd
configuration. -/
def bootstrapEnvironments (repo : ScmRepo) (pfx secretName : String) (ns : String → String) :
    Except String (List Environment × Config) :=
  match bootstrapEnvsLoop repo pfx secretName ns ["cicd", "dev", "stage"] [] none with
  | .error e => .error e
  | .ok (envs, pc) =>
    .ok (envs, { pipelines := pc, argocd := some { ns := argoCDNamespace }, git := none })

/-- The outcomes of the stages Bootstrap runs through, as oracles: the
pre-flight check, the hook secret step, bootstrapResources (the main
and side maps) and buildResources.  Bootstrap itself only sequences
these and then writes. -/
structure BootstrapSteps where
  checkRes : Except String Unit
  hookRes : Except String Unit
  bootRes : Except String (Resources × Resources)
  buildRes : Except String Resources

/-- Bootstrap from pkg/pipelines, as the stage sequencing over the
step outcomes: any stage failure is returned (bootstrapResources and
buildResources failures wrapped with their context prefixes, as in the
source) and nothing is written; on success the built resources are
merged over the bootstrapped ones and the write stage emits the main
tree at the output path and the side tree at its parent.  The write
log is the second component; writes are modelled as events, not as
fallible calls. -/
def BootstrapModel (st : BootstrapSteps) (outputPath : String) :
    Except String Unit × List (String × Resources) :=
  match st.checkRes with
  | .error e => (.error e, [])
  | .ok _ =>
    match st.hookRes with
    | .error e => (.error e, [])
    | .ok _ =>
      match st.bootRes with
      | .error e => (.error ("failed to bootstrap resources: " ++ e), [])
      | .ok (bootstrapped, otherResources) =>
        match st.buildRes with
        | .error e => (.error ("failed to build resources: " ++ e), [])
        | .ok built =>
          let merged := rmerge built bootstrapped
          (.ok (), [(outputPath, merged), (goJoin [outputPath, ".."], otherResources)])

/-- addPrefixToResources from pkg/pipelines: rebuild the resource map
with every key joined under the prefix. -/
def addPrefixToResources (p : String) (files : Resources) : Resources :=
  files.foldl (fun updated kv => rput updated (goJoin [p, kv.1]) kv.2) []

theorem mem_rkeys_rput (m : Resources) (k : String) (v : Res) (k' : String) :
    k' ∈ rkeys (rput m k v) ↔ k' ∈ rkeys m ∨ k' = k := by
  unfold rput
  split
  · rename_i h
    simp only [rkeys, List.map_map, List.mem_map, Function.comp] at *
    constructor
    · rintro ⟨p, hp, heq⟩
      by_cases hpk : p.1 = k
      · simp [hpk] at heq
        right; exact heq.symm
      · simp [hpk] at heq
        left; exact ⟨p, hp, heq⟩
    · rintro (⟨p, hp, heq⟩ | rfl)
      · by_cases hpk : p.1 = k
        · refine ⟨p, hp, ?_⟩
          simp only [hpk, if_pos]
          rw [← hpk, heq]
        · refine ⟨p, hp, ?_⟩
          rw [if_neg hpk]
          exact heq
      · obtain ⟨p, hp, hpk⟩ := h
        exact ⟨p, hp, by simp [hpk]⟩
  · rename_i h
    simp [rkeys, List.mem_append]

theorem rput_of_not_mem (m : Resources) (k : String) (v : Res) (h : k ∉ rkeys m) :
    rput m k v = m ++ [(k, v)] := by
  simp [rput, h]

theorem pruneTasks_eq (spst : String) (l : List PipelineTask) :
    pruneTasks spst l =
      (l.map (fun t =>
          if t.runAfter.length > 0 ∧ t.runAfter.head? = some spst then
            { t with runAfter := [] }
          else t)).filter (fun t => t.name != spst) := by
  induction l with
  | nil => rfl
  | cons t rest ih =>
    simp only [pruneTasks, List.map_cons, List.filter_cons]
    by_cases hcond : t.runAfter.length > 0 ∧ t.runAfter.head? = some spst
    · simp only [if_pos hcond]
      by_cases hname : ({ t with runAfter := [] } : PipelineTask).name = spst
      · simp [hname, ih]
      · simp [hname, ih]
    · simp only [if_neg hcond]
      by_cases hname : t.name = spst
      · simp [hname, ih]
      · simp [hname, ih]

/-- C1: removeCommitStatus with an empty driver returns the pipeline
unchanged; with a non-empty driver it empties the finally list and
rebuilds the task list by dropping the set-pending-status task and
clearing the whole runAfter list of every task whose runAfter list is
non-empty with set-pending-status as its first entry, leaving every
other task untouched. -/
theorem removeCommitStatus_prunes (p : Pipeline) (driver : String) :
    (driver = "" → removeCommitStatus p driver = p) ∧
    (driver ≠ "" →
      (removeCommitStatus p driver).finallyTasks = [] ∧
      (removeCommitStatus p driver).tasks =
        (p.tasks.map (fun t =>
            if t.runAfter.length > 0 ∧ t.runAfter.head? = some "set-pending-status" then
              { t with runAfter := [] }
            else t)).filter (fun t => t.name != "set-pending-status")) := by
  constructor
  · intro h
    simp [removeCommitStatus, h]
  · intro h
    constructor
    · simp [removeCommitStatus, h]
    · simp [removeCommitStatus, h, pruneTasks_eq]

/-- A concrete pipeline for evaluating the pruning claim: tasks A,
B depending on set-pending-status, and set-pending-status itself, plus
one finally task. -/
def pipeC1 : Pipeline :=
  { tasks := [{ name := "A", runAfter := [] },
              { name := "B", runAfter := ["set-pending-status"] },
              { name := "set-pending-status", runAfter := [] }],
    finallyTasks := [{ name := "report-status", runAfter := [] }] }

theorem removeCommitStatus_prunes_witness :
    removeCommitStatus pipeC1 "" = pipeC1 ∧
    (removeCommitStatus pipeC1 "github").finallyTasks = [] ∧
    (removeCommitStatus pipeC1 "github").tasks =
      [{ name := "A", runAfter := [] }, { name := "B", runAfter := [] }] := by
  refine ⟨(removeCommitStatus_prunes pipeC1 "").1 rfl,
    ((removeCommitStatus_prunes pipeC1 "github").2 (by decide)).1, ?_⟩
  have h := ((removeCommitStatus_prunes pipeC1 "github").2 (by decide)).2
  rw [h]; decide

/-- C10: with overwrite set the pre-flight check succeeds regardless
of the filesystem; without overwrite it fails exactly when
pipelines.yaml exists under the output path, or .git exists there
while pushing to git, or a secrets folder exists as a sibling of the
output path. -/
theorem checkPipelinesFileExists_spec (fs : String → Bool) (outputPath : String)
    (pushToGit : Bool) :
    (checkPipelinesFileExists fs outputPath true pushToGit = .ok ()) ∧
    ((∃ e, checkPipelinesFileExists fs outputPath false pushToGit = .error e) ↔
      (fs (goJoin [outputPath, pipelinesFile]) = true ∨
       (pushToGit = true ∧ fs (goJoin [outputPath, ".git"]) = true) ∨
       fs (goJoin [outputPath, "..", "secrets"]) = true)) := by
  constructor
  · simp [checkPipelinesFileExists]
  · cases hp : pushToGit
    · cases h1 : fs (goJoin [outputPath, pipelinesFile]) <;>
        cases h3 : fs (goJoin [outputPath, "..", "secrets"]) <;>
          simp [checkPipelinesFileExists, errorIfFileExists, h1, h3]
    · cases h1 : fs (goJoin [outputPath, pipelinesFile]) <;>
        cases h2 : fs (goJoin [outputPath, ".git"]) <;>
          cases h3 : fs (goJoin [outputPath, "..", "secrets"]) <;>
            simp [checkPipelinesFileExists, errorIfFileExists, h1, h2, h3]

/-- A concrete filesystem for the pre-flight witness: only the
pipelines file under the output folder exists. -/
def fsC10 : String → Bool := fun p => p == "out/pipelines.yaml"

theorem checkPipelinesFileExists_spec_witness :
    checkPipelinesFileExists fsC10 "out" true false = .ok () ∧
    (∃ e, checkPipelinesFileExists fsC10 "out" false false = .error e) := by
  refine ⟨(checkPipelinesFileExists_spec fsC10 "out" false).1, ?_⟩
  exact ((checkPipelinesFileExists_spec fsC10 "out" false).2).mpr (by decide)

/-- C3: when no environment of the manifest carries the dev name (in
particular when there are no environments at all), the composition
guard fails with the precondition error and the continuation that
would produce the two resource maps never runs. -/
theorem bootstrapCompose_missing_dev_env (m : Manifest) (devName appName : String)
    (k : Environment → Application → Except String (Resources × Resources))
    (h : ∀ e ∈ m.environments, e.name ≠ devName) :
    bootstrapComposeFrom m devName appName k =
      .error "unable to bootstrap without dev environment" := by
  have hfind : m.GetEnvironment devName = none := by
    unfold Manifest.GetEnvironment
    apply List.find?_eq_none.mpr
    intro e he
    simp [h e he]
  simp [bootstrapComposeFrom, hfind]

theorem bootstrapCompose_missing_dev_env_witness :
    bootstrapComposeFrom { gitOpsURL := "u", environments := [], config := none, version := 1 }
      "tst-dev" "app-taxi" (fun _ _ => .ok ([], [])) =
      .error "unable to bootstrap without dev environment" :=
  bootstrapCompose_missing_dev_env _ _ _ _ (by simp)

/-- C4: wiring the image-repository binding into a dev environment
whose first application has a first service and whose environment
pipelines carry integration bindings x then y yields the service-level
binding list with the new binding prepended and the existing bindings
preserved in order. -/
theorem svcImageBinding_precedence (devEnv : Environment) (b x y : String)
    (app0 : Application) (restA : List Application) (svc0 : Service) (restS : List Service)
    (ps : Pipelines) (tb : TemplateBinding)
    (hApps : devEnv.apps = app0 :: restA) (hSvcs : app0.services = svc0 :: restS)
    (hPs : devEnv.pipelines = some ps) (hTb : ps.integration = some tb)
    (hB : tb.bindings = [x, y]) :
    svcBindings (wireSvcImageBinding devEnv b) = some [b, x, y] := by
  simp [wireSvcImageBinding, svcBindings, hApps, hSvcs, hPs, hTb, hB]

/-- A concrete dev environment for the binding precedence witness. -/
def envC4 : Environment :=
  { name := "tst-dev",
    apps := [{ name := "app-taxi",
               services := [{ name := "taxi", sourceURL := "u",
                              webhook := none, pipelines := none }] }],
    pipelines := some { integration := some { template := "app-ci-template",
                                              bindings := ["x-binding", "y-binding"] } } }

theorem svcImageBinding_precedence_witness :
    svcBindings (wireSvcImageBinding envC4 "new-binding") =
      some ["new-binding", "x-binding", "y-binding"] :=
  svcImageBinding_precedence envC4 "new-binding" "x-binding" "y-binding"
    _ _ _ _ _ _ rfl rfl rfl rfl rfl

/-- C8: maybeMakeHookSecrets keeps a non-empty GitOps webhook secret
and a non-empty service webhook secret unchanged, replaces each empty
webhook secret with a freshly drawn generator output of length 20,
and changes no other option field. -/
theorem maybeMakeHookSecrets_spec (gen : Nat → Nat → Except String String)
    (o o' : BootstrapOptions)
    (hlen : ∀ i n s, gen i n = .ok s → s.length = n)
    (h : maybeMakeHookSecrets gen o = .ok o') :
    (o.gitOpsWebhookSecret ≠ "" → o'.gitOpsWebhookSecret = o.gitOpsWebhookSecret) ∧
    (o.serviceWebhookSecret ≠ "" → o'.serviceWebhookSecret = o.serviceWebhookSecret) ∧
    (o.gitOpsWebhookSecret = "" → o'.gitOpsWebhookSecret.length = 20) ∧
    (o.serviceWebhookSecret = "" → o'.serviceWebhookSecret.length = 20) ∧
    o' = { o with gitOpsWebhookSecret := o'.gitOpsWebhookSecret,
                  serviceWebhookSecret := o'.serviceWebhookSecret } := by
  by_cases hg : o.gitOpsWebhookSecret = ""
  · cases e1 : gen 0 webhookSecretLength with
    | error e => simp [maybeMakeHookSecrets, hg, e1] at h
    | ok s =>
      by_cases hs : o.serviceWebhookSecret = ""
      · cases e2 : gen 1 webhookSecretLength with
        | error e => simp [maybeMakeHookSecrets, hg, hs, e1, e2] at h
        | ok s2 =>
          simp [maybeMakeHookSecrets, hg, hs, e1, e2] at h
          subst h
          exact ⟨fun hc => absurd hg hc, fun hc => absurd hs hc,
            fun _ => hlen 0 webhookSecretLength s e1,
            fun _ => hlen 1 webhookSecretLength s2 e2, rfl⟩
      · simp [maybeMakeHookSecrets, hg, hs, e1] at h
        subst h
        exact ⟨fun hc => absurd hg hc, fun _ => rfl,
          fun _ => hlen 0 webhookSecretLength s e1,
          fun hc => absurd hc hs, rfl⟩
  · by_cases hs : o.serviceWebhookSecret = ""
    · cases e2 : gen 0 webhookSecretLength with
      | error e => simp [maybeMakeHookSecrets, hg, hs, e2] at h
      | ok s2 =>
        simp [maybeMakeHookSecrets, hg, hs, e2] at h
        subst h
        exact ⟨fun _ => rfl, fun hc => absurd hs hc, fun hc => absurd hc hg,
          fun _ => hlen 0 webhookSecretLength s2 e2, rfl⟩
    · simp [maybeMakeHookSecrets, hg, hs] at h
      subst h
      exact ⟨fun _ => rfl, fun _ => rfl, fun hc => absurd hc hg, fun hc => absurd hc hs, rfl⟩

/-- A concrete generator for the hook-secret witness: the i-th call
returns a run of a or b characters of the requested length. -/
def genC8 : Nat → Nat → Except String String :=
  fun i n => .ok (String.mk (List.replicate n (if i = 0 then 'a' else 'b')))

/-- Concrete options for the hook-secret witness: empty GitOps secret,
user-supplied service secret. -/
def oC8 : BootstrapOptions :=
  { gitOpsRepoURL := "https://example.com/org/gitops.git",
    gitOpsWebhookSecret := "",
    pfx := "tst-",
    dockerConfigJSONFilename := "config.json",
    imageRepo := "",
    outputPath := "out",
    gitHostAccessToken := "tok",
    overwrite := false,
    serviceRepoURL := "https://example.com/org/taxi.git",
    saveTokenKeyRing := false,
    serviceWebhookSecret := "svc-secret",
    privateRepoDriver := "",
    pushToGit := false }

/-- The expected output options of the hook-secret witness run. -/
def oC8out : BootstrapOptions :=
  { oC8 with gitOpsWebhookSecret := String.mk (List.replicate 20 'a') }

theorem maybeMakeHookSecrets_spec_witness :
    oC8out.gitOpsWebhookSecret.length = 20 ∧ oC8out.serviceWebhookSecret = "svc-secret" := by
  have hlen : ∀ i n s, genC8 i n = .ok s → s.length = n := by
    intro i n s h
    injection h with h
    rw [← h]
    simp [String.length]
  have hrun : maybeMakeHookSecrets genC8 oC8 = .ok oC8out := by rfl
  have hspec := maybeMakeHookSecrets_spec genC8 oC8 oC8out hlen hrun
  exact ⟨hspec.2.2.1 rfl, hspec.2.1 (by decide)⟩

theorem rkeys_nil : rkeys ([] : Resources) = [] := rfl


set_option maxHeartbeats 1000000 in
theorem mem_rkeys_cicdOutputsCore (cicdNamespace : String) (repo : ScmRepo)
    (o : BootstrapOptions) (outputs otherOutputs : Resources) (sa : ServiceAccount)
    (k : String) :
    k ∈ rkeys (cicdOutputsCore cicdNamespace repo o outputs otherOutputs sa).1 ↔
      (k ∈ rkeys outputs ∨
       (o.gitHostAccessToken ≠ "" ∧ k = serviceAccountPath) ∨
       k = argocdAdminRolePath ∨ k = rolebindingsPath ∨ k = gitopsTasksPath ∨
       (o.privateRepoDriver = "" ∧ k = commitStatusTaskPath) ∨
       k = ciPipelinesPath ∨ k = appCiPipelinesPath ∨
       k = goJoin ["05-bindings", repo.pushBindingName ++ ".yaml"] ∨
       k = pushTemplatePath ∨ k = appCIPushTemplatePath ∨ k = eventListenerPath ∨
       k = routePath) := by
  by_cases ht : o.gitHostAccessToken = ""
  · by_cases hp : o.privateRepoDriver = ""
    · simp [cicdOutputsCore, ht, hp, mem_rkeys_rput]
      tauto
    · simp [cicdOutputsCore, ht, hp, mem_rkeys_rput]
      tauto
  · by_cases hp : o.privateRepoDriver = ""
    · simp [cicdOutputsCore, ht, hp, mem_rkeys_rput]
      tauto
    · simp [cicdOutputsCore, ht, hp, mem_rkeys_rput]
      tauto

set_option maxHeartbeats 1000000 in
theorem createCICD_keys (fsOpen : String → Bool) (repo : ScmRepo) (cfgName : String)
    (o : BootstrapOptions) (outputs other : Resources)
    (h : createCICDResources fsOpen repo cfgName o = .ok (outputs, other)) (k : String) :
    k ∈ rkeys outputs ↔
      (k = namespacesPath ∨ k = rolesPath ∨
       ((o.dockerConfigJSONFilename ≠ "" ∨ o.gitHostAccessToken ≠ "") ∧ k = serviceAccountPath) ∨
       k = argocdAdminRolePath ∨ k = rolebindingsPath ∨ k = gitopsTasksPath ∨
       (o.privateRepoDriver = "" ∧ k = commitStatusTaskPath) ∨
       k = ciPipelinesPath ∨ k = appCiPipelinesPath ∨
       k = goJoin ["05-bindings", repo.pushBindingName ++ ".yaml"] ∨
       k = pushTemplatePath ∨ k = appCIPushTemplatePath ∨ k = eventListenerPath ∨
       k = routePath) := by
  by_cases hd : o.dockerConfigJSONFilename = ""
  · simp only [createCICDResources, hd, ne_eq, not_true_eq_false, if_false, ite_false,
      Except.ok.injEq] at h
    rw [Prod.ext_iff] at h
    obtain ⟨h1, h2⟩ := h
    replace h1 : _ = outputs := h1
    rw [← h1, mem_rkeys_cicdOutputsCore]
    by_cases ht : o.gitHostAccessToken = "" <;>
      simp [mem_rkeys_rput, rkeys_nil, hd, ht, or_assoc, or_self_left]
  · by_cases hf : fsOpen o.dockerConfigJSONFilename
    · simp only [createCICDResources, createDockerSecret, hd, hf, ne_eq, not_false_eq_true,
        if_true, ite_true, reduceIte, Except.ok.injEq] at h
      rw [Prod.ext_iff] at h
      obtain ⟨h1, h2⟩ := h
      replace h1 : _ = outputs := h1
      rw [← h1, mem_rkeys_cicdOutputsCore]
      by_cases ht : o.gitHostAccessToken = "" <;>
        simp [mem_rkeys_rput, rkeys_nil, hd, ht, or_assoc, or_self_left]
    · simp [createCICDResources, createDockerSecret, hd, hf] at h

/-- C2: on success the key set of the CICD resource map equals the
fixed table of well-known paths, instantiated at the push binding name
and at the two option toggles (the commit-status task is present
exactly when the private-repo driver is empty; the service-account
patch file is present exactly when a docker config or an access token
was supplied); the table mentions neither the prefix nor the image
repository, so the key set is the same regardless of prefix or
registry choice. -/
theorem createCICDResources_path_fixedness (fsOpen : String → Bool) (repo : ScmRepo)
    (cfgName : String) (o : BootstrapOptions) (outputs other : Resources)
    (h : createCICDResources fsOpen repo cfgName o = .ok (outputs, other)) (k : String) :
    k ∈ rkeys outputs ↔
      k ∈ cicdTable repo.pushBindingName (decide (o.privateRepoDriver = ""))
            (decide (o.dockerConfigJSONFilename ≠ "" ∨ o.gitHostAccessToken ≠ "")) := by
  rw [createCICD_keys fsOpen repo cfgName o outputs other h k]
  by_cases hp : o.privateRepoDriver = "" <;>
    by_cases hsa : (o.dockerConfigJSONFilename ≠ "" ∨ o.gitHostAccessToken ≠ "") <;>
      simp [cicdTable, hp, hsa, or_assoc]

/-- C5: on success the CICD resource map contains the commit-status
task file exactly when the private-repo driver option is empty; the
side condition says the push binding file path does not collide with
the commit-status task path, which holds for every driver-produced
binding name. -/
theorem commitStatusTask_iff_driver_empty (fsOpen : String → Bool) (repo : ScmRepo)
    (cfgName : String) (o : BootstrapOptions) (outputs other : Resources)
    (h : createCICDResources fsOpen repo cfgName o = .ok (outputs, other))
    (hpb : goJoin ["05-bindings", repo.pushBindingName ++ ".yaml"] ≠ commitStatusTaskPath) :
    commitStatusTaskPath ∈ rkeys outputs ↔ o.privateRepoDriver = "" := by
  rw [createCICD_keys fsOpen repo cfgName o outputs other h commitStatusTaskPath]
  have hpb' : ¬ (commitStatusTaskPath = goJoin ["05-bindings", repo.pushBindingName ++ ".yaml"]) :=
    fun hh => hpb hh.symm
  constructor
  · rintro (hc | hc | ⟨hx, hc⟩ | hc | hc | hc | ⟨hx, hc⟩ | hc | hc | hc | hc | hc | hc | hc)
    · exact absurd hc (by decide)
    · exact absurd hc (by decide)
    · exact absurd hc (by decide)
    · exact absurd hc (by decide)
    · exact absurd hc (by decide)
    · exact absurd hc (by decide)
    · exact hx
    · exact absurd hc (by decide)
    · exact absurd hc (by decide)
    · exact absurd hc hpb'
    · exact absurd hc (by decide)
    · exact absurd hc (by decide)
    · exact absurd hc (by decide)
    · exact absurd hc (by decide)
  · intro hp
    exact Or.inr (Or.inr (Or.inr (Or.inr (Or.inr (Or.inr (Or.inl ⟨hp, rfl⟩))))))

/-- A filesystem oracle for witnesses where every open succeeds. -/
def fsC : String → Bool := fun _ => true

/-- A concrete repository handle for witnesses. -/
def repoC : ScmRepo :=
  { url := "https://github.com/org/taxi.git", pushBindingName := "github-push-binding" }

/-- The concrete createCICDResources run of the path fixedness witness. -/
def cicdRunC : Except String (Resources × Resources) :=
  createCICDResources fsC repoC "tst-cicd" oC8

/-- The main map of the path fixedness witness run. -/
def outsC : Resources := (cicdRunC.toOption.getD ([], [])).1

/-- The side map of the path fixedness witness run. -/
def othersC : Resources := (cicdRunC.toOption.getD ([], [])).2

set_option maxHeartbeats 1000000 in
theorem createCICDResources_path_fixedness_witness :
    namespacesPath ∈ rkeys outsC ↔
      namespacesPath ∈ cicdTable "github-push-binding" true true := by
  have h : createCICDResources fsC repoC "tst-cicd" oC8 = .ok (outsC, othersC) := rfl
  exact createCICDResources_path_fixedness fsC repoC "tst-cicd" oC8 outsC othersC h namespacesPath

/-- Options with a non-empty private-repo driver for the commit-status
witness. -/
def oC5w : BootstrapOptions := { oC8 with privateRepoDriver := "github" }

/-- The concrete createCICDResources run of the commit-status witness. -/
def cicdRunC5 : Except String (Resources × Resources) :=
  createCICDResources fsC repoC "tst-cicd" oC5w

/-- The main map of the commit-status witness run. -/
def outsC5 : Resources := (cicdRunC5.toOption.getD ([], [])).1

/-- The side map of the commit-status witness run. -/
def othersC5 : Resources := (cicdRunC5.toOption.getD ([], [])).2

set_option maxHeartbeats 1000000 in
theorem commitStatusTask_iff_driver_empty_witness :
    ¬ commitStatusTaskPath ∈ rkeys outsC5 := by
  have h : createCICDResources fsC repoC "tst-cicd" oC5w = .ok (outsC5, othersC5) := rfl
  have hiff := commitStatusTask_iff_driver_empty fsC repoC "tst-cicd" oC5w outsC5 othersC5 h
    (by decide)
  intro hm
  exact absurd (hiff.mp hm) (by decide)

/-- Concrete step outcomes where building the bootstrap resources
fails. -/
def stC6 : BootstrapSteps :=
  { checkRes := .ok (), hookRes := .ok (), bootRes := .error "boom", buildRes := .ok [] }

/-- Counterexample to C6 as stated: when building the bootstrap
resources fails with the message boom, Bootstrap returns the wrapped
message, which differs from the original error, though no write
happens. -/
theorem bootstrap_error_not_verbatim_cex :
    (BootstrapModel stC6 "out").1 = .error "failed to bootstrap resources: boom" ∧
    (BootstrapModel stC6 "out").2 = [] ∧
    "failed to bootstrap resources: boom" ≠ "boom" :=
  ⟨rfl, rfl, by decide⟩

/-- C6 amended: when the pre-flight and hook stages pass and building
the bootstrap resources or the derived resources fails, Bootstrap
returns that failure wrapped with its context prefix and performs no
filesystem writes; writes happen only when both resource maps were
fully constructed, and then they are exactly the main tree at the
output path and the side tree at its parent. -/
theorem bootstrap_error_wrapped_no_writes (st : BootstrapSteps) (outputPath : String) :
    (∀ e, st.checkRes = .ok () → st.hookRes = .ok () → st.bootRes = .error e →
      BootstrapModel st outputPath = (.error ("failed to bootstrap resources: " ++ e), [])) ∧
    (∀ b e, st.checkRes = .ok () → st.hookRes = .ok () → st.bootRes = .ok b →
      st.buildRes = .error e →
      BootstrapModel st outputPath = (.error ("failed to build resources: " ++ e), [])) ∧
    ((BootstrapModel st outputPath).2 ≠ [] →
      ∃ b r, st.bootRes = .ok b ∧ st.buildRes = .ok r ∧
        (BootstrapModel st outputPath).2 =
          [(outputPath, rmerge r b.1), (goJoin [outputPath, ".."], b.2)]) := by
  refine ⟨?_, ?_, ?_⟩
  · intro e hc hh hb
    simp [BootstrapModel, hc, hh, hb]
  · intro b e hc hh hb hbuild
    obtain ⟨b1, b2⟩ := b
    simp [BootstrapModel, hc, hh, hb, hbuild]
  · intro hw
    cases hc : st.checkRes with
    | error e => simp [BootstrapModel, hc] at hw
    | ok u =>
      cases u
      cases hh : st.hookRes with
      | error e => simp [BootstrapModel, hc, hh] at hw
      | ok u2 =>
        cases u2
        cases hb : st.bootRes with
        | error e => simp [BootstrapModel, hc, hh, hb] at hw
        | ok b =>
          obtain ⟨b1, b2⟩ := b
          cases hr : st.buildRes with
          | error e => simp [BootstrapModel, hc, hh, hb, hr] at hw
          | ok r =>
            exact ⟨(b1, b2), r, rfl, rfl, by simp [BootstrapModel, hc, hh, hb, hr]⟩

theorem bootstrap_error_wrapped_no_writes_witness :
    BootstrapModel stC6 "out" = (.error ("failed to bootstrap resources: " ++ "boom"), []) :=
  (bootstrap_error_wrapped_no_writes stC6 "out").1 "boom" rfl rfl rfl

theorem rkeys_cons (kv : String × Res) (l : Resources) : rkeys (kv :: l) = kv.1 :: rkeys l := rfl

theorem rkeys_append (a b : Resources) : rkeys (a ++ b) = rkeys a ++ rkeys b := by
  simp [rkeys]

/-- Two distinct opaque resource values. -/
def resA : Res := Res.namespaceRes "a" "b"

/-- Two distinct opaque resource values. -/
def resB : Res := Res.namespaceRes "c" "d"

/-- A resource map whose two distinct keys are merged by the
path-cleaning of the join: x and ./x both join to p/x. -/
def filesC7 : Resources := [("x", resA), ("./x", resB)]

/-- Counterexample to C7 as stated: the keys x and ./x are distinct,
yet both join to p/x under the prefix p, so the rewritten map has
fewer entries than the original. -/
theorem addPrefixToResources_collision_cex :
    (addPrefixToResources "p" filesC7).length ≠ filesC7.length := by decide

/-- C7 amended: when joining under the prefix is injective on the map
keys (as it is for clean slash-paths, though not for arbitrary keys,
where the join cleaning can merge keys such as x and ./x), the
rewritten map is exactly the entry-wise join: its key list is the
joined original key list, the entry count is unchanged, and every
original entry reappears under its joined key with its value. -/
theorem addPrefixToResources_injective_keys (p : String) (files : Resources)
    (hnd : (rkeys files).Nodup)
    (hinj : ∀ k1 ∈ rkeys files, ∀ k2 ∈ rkeys files, goJoin [p, k1] = goJoin [p, k2] → k1 = k2) :
    addPrefixToResources p files = files.map (fun kv => (goJoin [p, kv.1], kv.2)) ∧
    rkeys (addPrefixToResources p files) = (rkeys files).map (fun k => goJoin [p, k]) ∧
    (addPrefixToResources p files).length = files.length ∧
    ∀ kv ∈ files, (goJoin [p, kv.1], kv.2) ∈ addPrefixToResources p files := by
  have main : ∀ (l : Resources), (rkeys l).Nodup →
      (∀ k1 ∈ rkeys l, ∀ k2 ∈ rkeys l, goJoin [p, k1] = goJoin [p, k2] → k1 = k2) →
      ∀ (acc : Resources), (∀ kv ∈ l, goJoin [p, kv.1] ∉ rkeys acc) →
      l.foldl (fun updated kv => rput updated (goJoin [p, kv.1]) kv.2) acc =
        acc ++ l.map (fun kv => (goJoin [p, kv.1], kv.2)) := by
    intro l
    induction l with
    | nil =>
      intro _ _ acc _
      simp
    | cons kv rest ih =>
      intro hnd hinj acc hfresh
      have hndr : (rkeys rest).Nodup := (List.nodup_cons.mp (by rwa [rkeys_cons] at hnd)).2
      have hinjr : ∀ k1 ∈ rkeys rest, ∀ k2 ∈ rkeys rest,
          goJoin [p, k1] = goJoin [p, k2] → k1 = k2 := by
        intro k1 h1 k2 h2
        exact hinj k1 (by rw [rkeys_cons]; exact List.mem_cons_of_mem _ h1) k2
          (by rw [rkeys_cons]; exact List.mem_cons_of_mem _ h2)
      simp only [List.foldl_cons, List.map_cons]
      rw [rput_of_not_mem _ _ _ (hfresh kv (List.mem_cons_self kv rest))]
      rw [ih hndr hinjr (acc ++ [(goJoin [p, kv.1], kv.2)]) ?hfresh]
      · simp
      case hfresh =>
        intro kv' hkv'
        have hmem' : kv'.1 ∈ rkeys rest := by
          simp only [rkeys, List.mem_map]
          exact ⟨kv', hkv', rfl⟩
        intro hin
        rw [rkeys_append] at hin
        rcases List.mem_append.mp hin with hin | hin
        · exact hfresh kv' (List.mem_cons_of_mem _ hkv') hin
        · have heq : goJoin [p, kv'.1] = goJoin [p, kv.1] := by
            simpa [rkeys] using hin
          have hk : kv'.1 = kv.1 :=
            hinj kv'.1 (by rw [rkeys_cons]; exact List.mem_cons_of_mem _ hmem') kv.1
              (by rw [rkeys_cons]; exact List.mem_cons_self _ _) heq
          have hndc : kv.1 ∉ rkeys rest := (List.nodup_cons.mp (by rwa [rkeys_cons] at hnd)).1
          exact hndc (hk ▸ hmem')
  have e1 : addPrefixToResources p files = files.map (fun kv => (goJoin [p, kv.1], kv.2)) := by
    have h1 := main files hnd hinj [] (by intro kv _; simp [rkeys])
    simpa [addPrefixToResources] using h1
  refine ⟨e1, ?_, ?_, ?_⟩
  · rw [e1]
    simp [rkeys, List.map_map, Function.comp]
  · rw [e1]
    simp
  · intro kv hkv
    rw [e1]
    exact List.mem_map_of_mem _ hkv

/-- A resource map with ordinary clean keys for the prefix witness. -/
def filesC7w : Resources := [("a.yaml", resA), ("b.yaml", resB)]

theorem addPrefixToResources_injective_keys_witness :
    addPrefixToResources "p" filesC7w = [("p/a.yaml", resA), ("p/b.yaml", resB)] := by
  have h := (addPrefixToResources_injective_keys "p" filesC7w (by decide) (by decide)).1
  rw [h]
  decide

/-- Counterexample to C9 as stated: a concrete bootstrap run yields
an environments sequence holding exactly the dev and stage
environments; no environment named tst-cicd is in the sequence. -/
theorem bootstrapEnvironments_two_envs_cex :
    ((bootstrapEnvironments repoC "tst-" "sec" (namesWithPfx "tst-")).toOption.map
        (fun pr => pr.1.map (fun e => e.name))) = some ["tst-dev", "tst-stage"] ∧
    "tst-cicd" ∉ (["tst-dev", "tst-stage"] : List String) := by decide

/-- C9 amended: for every prefix the bootstrap flow produces exactly
the two environments dev and stage (prefix-carrying) in the
environments sequence, the dev environment carrying the bootstrap
application and service; the prefixed cicd name is produced as the
pipelines configuration of the manifest config block, not as an
environment in the sequence. -/
theorem bootstrapEnvironments_dev_stage (repo : ScmRepo) (pfx secretName : String) :
    ∃ envs cfg,
      bootstrapEnvironments repo pfx secretName (namesWithPfx pfx) = .ok (envs, cfg) ∧
      envs.map (fun e => e.name) = [pfx ++ "dev", pfx ++ "stage"] ∧
      cfg.pipelines = some { name := pfx ++ "cicd" } ∧
      ∃ r, repoFromURL repo.url = .ok r ∧
        (envs.head?.map (fun e => e.apps.map (fun a => (a.name, a.services.map (fun s => s.name))))) =
          some [("app-" ++ r, [r])] ∧
        (envs.head?.bind (fun e => e.pipelines)) = some (defaultPipelines repo) := by
  obtain ⟨r, hr⟩ : ∃ r, repoFromURL repo.url = .ok r := ⟨_, rfl⟩
  have hrun : bootstrapEnvironments repo pfx secretName (namesWithPfx pfx) =
      .ok ([{ name := pfx ++ "dev",
              apps := [{ name := "app-" ++ r,
                         services := [{ name := r, sourceURL := repo.url,
                                        webhook := some { secret := some { name := secretName,
                                                                           ns := pfx ++ "cicd" } },
                                        pipelines := none }] }],
              pipelines := some (defaultPipelines repo) },
            { name := pfx ++ "stage", apps := [], pipelines := none }],
           { pipelines := some { name := pfx ++ "cicd" },
             argocd := some { ns := argoCDNamespace }, git := none }) := by
    simp [bootstrapEnvironments, bootstrapEnvsLoop, serviceFromRepo, applicationFromRepo,
      repoToAppName, namesWithPfx, hr]
  refine ⟨_, _, hrun, by simp, by simp, r, hr, by simp, by simp⟩
